import Mathlib

set_option maxRecDepth 200000

/-!
Verification of the `make-offline` repository: a string-templating HTML
injector (`makeOffline`) and a service-worker script generator
(`generateServiceWorker`), together with a shallow embedding of the
behaviour of the generated service-worker script (its `fetch` and
`activate` handlers).

Documents and scripts are modelled as character sequences (`List Char` /
`String`).  JavaScript's `String.prototype.includes` and single-pattern
`String.prototype.replace` (which replaces only the first occurrence)
are modelled by `containsSub` and `replaceFirst` below.
-/

/-- JS `haystack.includes(pat)`: does `pat` occur as a contiguous substring? -/
def containsSub (pat : List Char) : List Char → Bool
  | [] => pat.isEmpty
  | c :: cs => pat.isPrefixOf (c :: cs) || containsSub pat cs

/-- JS `l.replace(pat, rep)` with a string pattern: replace the first
occurrence of `pat` by `rep`; if `pat` does not occur, return `l` unchanged. -/
def replaceFirst (pat rep : List Char) : List Char → List Char
  | [] => []
  | c :: cs =>
    if pat.isPrefixOf (c :: cs) then rep ++ (c :: cs).drop pat.length
    else c :: replaceFirst pat rep cs

/-- Number of (possibly overlapping) occurrences of `pat`, one per start
position. -/
def countSub (pat : List Char) : List Char → Nat
  | [] => if pat.isEmpty then 1 else 0
  | c :: cs => (if pat.isPrefixOf (c :: cs) then 1 else 0) + countSub pat cs

/-- JS `s.includes(pat)` on `String`s. -/
def strIncludes (s pat : String) : Bool := containsSub pat.data s.data

/-- The fixed augmentation block (`offlineScripts` in `makeOffline`):
banner markup, styles and the bootstrap script, verbatim from the source. -/
def offlineScripts : String := "\n    <!-- Offline functionality injected by makeOffline() -->\n    <style id=\"offline-styles\">\n      .offline-banner \x7b\n        position: fixed;\n        top: 0;\n        left: 0;\n        right: 0;\n        background: #f8d7da;\n        color: #721c24;\n        padding: 10px;\n        text-align: center;\n        z-index: 10000;\n        display: none;\n        font-family: -apple-system, BlinkMacSystemFont, \x27Segoe UI\x27, Roboto, sans-serif;\n      \x7d\n      .offline-banner.show \x7b display: block; \x7d\n      .update-banner \x7b\n        position: fixed;\n        bottom: 20px;\n        right: 20px;\n        background: #fff3cd;\n        color: #856404;\n        padding: 15px;\n        border-radius: 5px;\n        box-shadow: 0 2px 10px rgba(0,0,0,0.2);\n        display: none;\n        z-index: 10001;\n        font-family: -apple-system, BlinkMacSystemFont, \x27Segoe UI\x27, Roboto, sans-serif;\n      \x7d\n      .update-banner.show \x7b display: block; \x7d\n      .update-banner button \x7b\n        background: #007bff;\n        color: white;\n        border: none;\n        padding: 5px 10px;\n        border-radius: 3px;\n        cursor: pointer;\n        margin-left: 10px;\n      \x7d\n    </style>\n    \n    <div class=\"offline-banner\" id=\"offline-banner\">\n      📱 You\x27re offline! Showing cached content.\n    </div>\n    \n    <div class=\"update-banner\" id=\"update-banner\">\n      📱 New version available!\n      <button onclick=\"window.offlineHelper.updateApp()\">Update</button>\n    </div>\n\n    <script>\n      // Offline helper functionality\n      window.offlineHelper = \x7b\n        isOnline: navigator.onLine,\n        serviceWorker: null,\n        \n        init() \x7b\n          this.updateStatus();\n          this.registerServiceWorker();\n          this.setupEventListeners();\n        \x7d,\n        \n        async registerServiceWorker() \x7b\n          if (\x27serviceWorker\x27 in navigator) \x7b\n            try \x7b\n              const registration = await navigator.serviceWorker.register(\x27/sw.js\x27);\n              this.serviceWorker = registration;\n              \n              registration.addEventListener(\x27updatefound\x27, () => \x7b\n                const newWorker = registration.installing;\n                newWorker.addEventListener(\x27statechange\x27, () => \x7b\n                  if (newWorker.state === \x27installed\x27 && navigator.serviceWorker.controller) \x7b\n                    this.showUpdateBanner();\n                  \x7d\n                \x7d);\n              \x7d);\n            \x7d catch (err) \x7b\n              console.log(\x27SW registration failed:\x27, err);\n            \x7d\n          \x7d\n        \x7d,\n        \n        setupEventListeners() \x7b\n          window.addEventListener(\x27online\x27, () => \x7b\n            this.isOnline = true;\n            this.updateStatus();\n          \x7d);\n          \n          window.addEventListener(\x27offline\x27, () => \x7b\n            this.isOnline = false;\n            this.updateStatus();\n          \x7d);\n          \n          if (\x27serviceWorker\x27 in navigator) \x7b\n            navigator.serviceWorker.addEventListener(\x27message\x27, event => \x7b\n              if (event.data.type === \x27CACHE_UPDATED\x27) \x7b\n                this.showUpdateBanner();\n              \x7d\n            \x7d);\n          \x7d\n        \x7d,\n        \n        updateStatus() \x7b\n          const banner = document.getElementById(\x27offline-banner\x27);\n          if (this.isOnline) \x7b\n            banner.classList.remove(\x27show\x27);\n          \x7d else \x7b\n            banner.classList.add(\x27show\x27);\n          \x7d\n        \x7d,\n        \n        showUpdateBanner() \x7b\n          document.getElementById(\x27update-banner\x27).classList.add(\x27show\x27);\n        \x7d,\n        \n        updateApp() \x7b\n          if (this.serviceWorker && this.serviceWorker.waiting) \x7b\n            this.serviceWorker.waiting.postMessage(\x7b type: \x27SKIP_WAITING\x27 \x7d);\n            window.location.reload();\n          \x7d\n        \x7d\n      \x7d;\n      \n      // Initialize when DOM is ready\n      if (document.readyState === \x27loading\x27) \x7b\n        document.addEventListener(\x27DOMContentLoaded\x27, () => window.offlineHelper.init());\n      \x7d else \x7b\n        window.offlineHelper.init();\n      \x7d\n    </script>\n  "

/-- `makeOffline(html)`: insert the augmentation block before the first
`</body>`, or append it when no `</body>` occurs. -/
def makeOffline (html : List Char) : List Char :=
  if containsSub "</body>".data html then
    replaceFirst "</body>".data (offlineScripts.data ++ "</body>".data) html
  else
    html ++ offlineScripts.data

/-- The generated service-worker script text, verbatim from the source. -/
def serviceWorkerSource : String := "\nconst CACHE_NAME = \x27auto-offline-v1\x27;\n\n// Install event - just activate immediately\nself.addEventListener(\x27install\x27, event => \x7b\n  console.log(\x27SW Install - Auto-caching mode\x27);\n  event.waitUntil(self.skipWaiting());\n\x7d);\n\n// Activate event - clean up old caches\nself.addEventListener(\x27activate\x27, event => \x7b\n  console.log(\x27SW Activate\x27);\n  event.waitUntil(\n    caches.keys().then(cacheNames => \x7b\n      return Promise.all(\n        cacheNames.map(cacheName => \x7b\n          if (cacheName !== CACHE_NAME) \x7b\n            console.log(\x27Deleting old cache:\x27, cacheName);\n            return caches.delete(cacheName);\n          \x7d\n        \x7d)\n      );\n    \x7d).then(() => self.clients.claim())\n  );\n\x7d);\n\n// Fetch event - cache everything automatically\nself.addEventListener(\x27fetch\x27, event => \x7b\n  if (event.request.method !== \x27GET\x27) return;\n  \n  event.respondWith(\n    fetch(event.request)\n      .then(response => \x7b\n        // Always cache successful responses (except service worker itself)\n        if (response.ok && !event.request.url.includes(\x27/sw.js\x27)) \x7b\n          const responseClone = response.clone();\n          caches.open(CACHE_NAME)\n            .then(cache => \x7b\n              cache.put(event.request, responseClone);\n              console.log(\x27Cached:\x27, event.request.url);\n            \x7d);\n        \x7d\n        return response;\n      \x7d)\n      .catch(() => \x7b\n        // When offline, try to serve from cache\n        return caches.match(event.request)\n          .then(cachedResponse => \x7b\n            if (cachedResponse) \x7b\n              console.log(\x27Serving from cache:\x27, event.request.url);\n              return cachedResponse;\n            \x7d\n            \n            // For API calls, return a generic offline response\n            if (event.request.url.includes(\x27/api/\x27)) \x7b\n              return new Response(JSON.stringify(\x7b\n                error: \x27Offline\x27,\n                message: \x27No cached data available\x27,\n                timestamp: new Date().toISOString()\n              \x7d), \x7b\n                headers: \x7b \x27Content-Type\x27: \x27application/json\x27 \x7d,\n                status: 503\n              \x7d);\n            \x7d\n            \n            // For other requests, return a basic offline message\n            return new Response(\x27Offline - No cached version available\x27, \x7b\n              status: 503,\n              statusText: \x27Service Unavailable\x27\n            \x7d);\n          \x7d);\n      \x7d)\n  );\n\x7d);\n\n// Handle skip waiting message\nself.addEventListener(\x27message\x27, event => \x7b\n  if (event.data && event.data.type === \x27SKIP_WAITING\x27) \x7b\n    self.skipWaiting();\n  \x7d\n\x7d);\n"

/-- `generateServiceWorker()`: a nullary function returning the fixed
service-worker script. -/
def generateServiceWorker (_ : Unit) : String := serviceWorkerSource

/-- The cache generation identifier baked into the generated script
(`const CACHE_NAME = 'auto-offline-v1'`). -/
def CACHE_NAME : String := "auto-offline-v1"

/-- An HTTP response as observed by the service worker. -/
structure Response where
  status : Nat
  statusText : String
  headers : List (String × String)
  body : String
deriving DecidableEq, Repr

/-- `response.ok`: the status is in the successful range 200–299. -/
def Response.ok (r : Response) : Bool :=
  decide (200 ≤ r.status) && decide (r.status ≤ 299)

/-- A request as observed by the service worker's fetch handler. -/
structure Request where
  method : String
  url : String
deriving DecidableEq, Repr

/-- The state of the CacheStorage: cache name ↦ (url ↦ stored response). -/
abbrev Caches := List (String × List (String × Response))

/-- `cache.put` on a single cache's entry list: overwrite the entry for
`url`, appending a fresh one when absent. -/
def cachePutEntries : List (String × Response) → String → Response → List (String × Response)
  | [], url, r => [(url, r)]
  | (u, r') :: tl, url, r =>
    if u == url then (url, r) :: tl else (u, r') :: cachePutEntries tl url r

/-- `caches.open(name)` followed by `cache.put(url, r)`: the named cache is
created lazily if absent, and its entry for `url` is overwritten. -/
def cachePut : Caches → String → String → Response → Caches
  | [], name, url, r => [(name, [(url, r)])]
  | (n, es) :: tl, name, url, r =>
    if n == name then (n, cachePutEntries es url r) :: tl
    else (n, es) :: cachePut tl name url r

/-- Lookup of `url` in a single cache's entry list. -/
def lookupEntries : List (String × Response) → String → Option Response
  | [], _ => none
  | (u, r) :: tl, url => if u == url then some r else lookupEntries tl url

/-- `caches.match(url)`: scan every cache in order, returning the first hit. -/
def cachesMatch : Caches → String → Option Response
  | [], _ => none
  | (_, es) :: tl, url =>
    match lookupEntries es url with
    | some r => some r
    | none => cachesMatch tl url

/-- Lookup in one named cache (used to state what `cachePut` stored). -/
def cacheGet : Caches → String → String → Option Response
  | [], _, _ => none
  | (n, es) :: tl, name, url =>
    if n == name then lookupEntries es url else cacheGet tl name url

/-- The JSON body synthesized for API calls while offline:
`JSON.stringify({error, message, timestamp})`. -/
def apiOfflineBody (nowIso : String) : String :=
  "\x7b\"error\":\"Offline\",\"message\":\"No cached data available\",\"timestamp\":\"" ++ nowIso ++ "\"\x7d"

/-- The `new Response(JSON.stringify(...), {headers, status: 503})` offline
response for API calls (default `statusText` is the empty string). -/
def apiOfflineResponse (nowIso : String) : Response :=
  { status := 503
    statusText := ""
    headers := [("Content-Type", "application/json")]
    body := apiOfflineBody nowIso }

/-- The plain-text offline response for non-API requests. -/
def plainOfflineResponse : Response :=
  { status := 503
    statusText := "Service Unavailable"
    headers := []
    body := "Offline - No cached version available" }

/-- Outcome of the fetch handler: either the handler returned without
calling `respondWith` (browser default handling), or it responded. -/
inductive FetchOutcome where
  | passThrough
  | respond (r : Response)
deriving DecidableEq, Repr

/-- The generated service worker's fetch handler.  `net` is the outcome of
the live `fetch` (`none` = network failure), `nowIso` the value of
`new Date().toISOString()` at fallback time.  Returns the outcome together
with the cache state after the handler (the `cache.put` is fire-and-forget
in the source; the state shown is the one after the write lands). -/
def handleFetch (st : Caches) (req : Request) (net : Option Response)
    (nowIso : String) : FetchOutcome × Caches :=
  if req.method != "GET" then (.passThrough, st)
  else
    match net with
    | some resp =>
      if resp.ok && !(strIncludes req.url "/sw.js") then
        (.respond resp, cachePut st CACHE_NAME req.url resp)
      else
        (.respond resp, st)
    | none =>
      match cachesMatch st req.url with
      | some cached => (.respond cached, st)
      | none =>
        if strIncludes req.url "/api/" then
          (.respond (apiOfflineResponse nowIso), st)
        else
          (.respond plainOfflineResponse, st)

/-- Observable actions of the activate handler. -/
inductive SWAction where
  | deleteCache (name : String)
  | claimClients
deriving DecidableEq, Repr

/-- The cache names the activate handler deletes: every enumerated key
different from `CACHE_NAME`. -/
def activateDeletes (st : Caches) : List String :=
  (st.map Prod.fst).filter (fun n => n != CACHE_NAME)

/-- The activate handler's action sequence: delete each stale cache, then
`clients.claim()`. -/
def activateActions (st : Caches) : List SWAction :=
  (activateDeletes st).map SWAction.deleteCache ++ [SWAction.claimClients]

/-- `caches.delete(name)`. -/
def cachesDelete (name : String) (st : Caches) : Caches :=
  st.filter (fun e => e.1 != name)

/-- Effect of one action on the cache state. -/
def applyAction (st : Caches) : SWAction → Caches
  | .deleteCache n => cachesDelete n st
  | .claimClients => st

/-- The cache state after the activate handler ran all its actions. -/
def handleActivate (st : Caches) : Caches :=
  (activateActions st).foldl applyAction st

/-- Names deleted by a list of actions. -/
def actionDeletes (acts : List SWAction) : List String :=
  acts.filterMap (fun a => match a with
    | .deleteCache n => some n
    | .claimClients => none)

/-- A sample successful response used to instantiate the policy theorems. -/
def sampleResponse : Response :=
  { status := 200, statusText := "OK", headers := [], body := "hello" }

/-! ### General facts about `containsSub`, `replaceFirst` and `countSub` -/

theorem isPrefixOf_eq {l1 l2 : List Char} : l1.isPrefixOf l2 = true ↔ l1 <+: l2 :=
  List.isPrefixOf_iff_prefix

theorem containsSub_correct {pat l : List Char} :
    containsSub pat l = true ↔ pat <:+: l := by
  induction l with
  | nil => simp [containsSub]
  | cons c cs ih =>
    simp [containsSub, ih, List.infix_cons_iff]

theorem containsSub_of_start {pat l : List Char} (h : pat <+: l) :
    containsSub pat l = true :=
  containsSub_correct.mpr h.isInfix

/-- The first-occurrence decomposition underlying a successful
`containsSub` test. -/
theorem containsSub_spec {pat : List Char} :
    ∀ {l : List Char}, containsSub pat l = true →
      ∃ pre suf, l = pre ++ pat ++ suf ∧
        ∀ p q, l = p ++ pat ++ q → pre.length ≤ p.length := by
  intro l
  induction l with
  | nil =>
    intro h
    simp [containsSub] at h
    exact ⟨[], [], by simp [h], fun p q _ => Nat.zero_le _⟩
  | cons c cs ih =>
    intro h
    by_cases hp : pat.isPrefixOf (c :: cs)
    · obtain ⟨t, ht⟩ := isPrefixOf_eq.mp hp
      exact ⟨[], t, by simp [← ht], fun p q _ => Nat.zero_le _⟩
    · have h' : containsSub pat cs = true := by
        simpa [containsSub, hp] using h
      obtain ⟨pre, suf, heq, hmin⟩ := ih h'
      refine ⟨c :: pre, suf, by simp [heq], ?_⟩
      intro p q hpq
      match p, hpq with
      | [], hpq =>
        exfalso
        exact hp (isPrefixOf_eq.mpr ⟨q, by simpa using hpq.symm⟩)
      | c' :: p', hpq =>
        have h2 : c = c' ∧ cs = p' ++ (pat ++ q) := by simpa using hpq
        have h3 : cs = p' ++ pat ++ q := by simp [h2.2]
        simpa using Nat.succ_le_succ (hmin p' q h3)

/-- `replaceFirst` rewrites exactly at a left-most occurrence. -/
theorem replaceFirst_first_occ {pat rep : List Char} (hpat : pat ≠ []) :
    ∀ (a s : List Char),
      (∀ p q, a ++ pat ++ s = p ++ pat ++ q → a.length ≤ p.length) →
      replaceFirst pat rep (a ++ pat ++ s) = a ++ rep ++ s := by
  intro a
  induction a with
  | nil =>
    intro s _
    match pat, hpat with
    | cp :: pat', _ =>
      have hpre : (cp :: pat').isPrefixOf (cp :: (pat' ++ s)) :=
        isPrefixOf_eq.mpr ⟨s, by simp⟩
      simp [replaceFirst, hpre, List.drop_left' (by simp : (cp :: pat').length = (cp :: pat').length)]
  | cons c a' ih =>
    intro s hmin
    have hnp : ¬ pat.isPrefixOf (c :: (a' ++ pat ++ s)) := by
      intro hp
      obtain ⟨t, ht⟩ := isPrefixOf_eq.mp hp
      have h0 := hmin [] t (by simpa using ht.symm)
      simp at h0
    have hrec := ih s (fun p q hpq => by
      have := hmin (c :: p) q (by simpa using hpq)
      simpa using this)
    calc replaceFirst pat rep ((c :: a') ++ pat ++ s)
        = c :: replaceFirst pat rep (a' ++ pat ++ s) := by
          simp only [List.cons_append]
          rw [replaceFirst, if_neg (by simpa using hnp)]
      _ = (c :: a') ++ rep ++ s := by rw [hrec]; simp

theorem countSub_append_ge (pat : List Char) (hpat : pat ≠ []) :
    ∀ a b : List Char, countSub pat a + countSub pat b ≤ countSub pat (a ++ b) := by
  intro a b
  induction a with
  | nil =>
    simp [countSub, List.isEmpty_iff, hpat]
  | cons c cs ih =>
    have hmono : (if pat.isPrefixOf (c :: cs) then 1 else 0) ≤
        (if pat.isPrefixOf (c :: (cs ++ b)) then 1 else 0) := by
      by_cases hp : pat.isPrefixOf (c :: cs)
      · have : pat.isPrefixOf (c :: (cs ++ b)) := by
          refine isPrefixOf_eq.mpr ?_
          have := (isPrefixOf_eq.mp hp).trans
            (List.prefix_append (c :: cs) b)
          simpa using this
        simp [hp, this]
      · simp [hp]
    calc countSub pat (c :: cs) + countSub pat b
        = (if pat.isPrefixOf (c :: cs) then 1 else 0) + (countSub pat cs + countSub pat b) := by
          simp [countSub, Nat.add_assoc]
      _ ≤ (if pat.isPrefixOf (c :: (cs ++ b)) then 1 else 0) + countSub pat (cs ++ b) :=
          Nat.add_le_add hmono ih
      _ = countSub pat ((c :: cs) ++ b) := by simp [countSub]

theorem countSub_self_ge_one {pat : List Char} (hpat : pat ≠ []) :
    1 ≤ countSub pat pat := by
  match pat, hpat with
  | c :: cs, _ =>
    have hp : (c :: cs).isPrefixOf (c :: cs) :=
      isPrefixOf_eq.mpr (List.prefix_refl _)
    simp [countSub, hp]

/-- Occurrences in a concatenation: inside the left part, inside the right
part, or straddling the border (a nontrivial tail of the pattern starts the
right part). -/
theorem containsSub_append_cases {pat : List Char} (a b : List Char)
    (h : containsSub pat (a ++ b) = true) :
    containsSub pat a = true ∨ containsSub pat b = true ∨
      ∃ j, 0 < j ∧ j < pat.length ∧ (pat.drop j).isPrefixOf b = true := by
  obtain ⟨s, t, hst⟩ := containsSub_correct.mp h
  have hst' : s ++ (pat ++ t) = a ++ b := by simpa using hst
  rcases List.append_eq_append_iff.mp hst' with ⟨w, hw, hwb⟩ | ⟨w, hw, hwb⟩
  · -- a = s ++ w, pat ++ t = w ++ b
    rcases List.append_eq_append_iff.mp hwb with ⟨v, hv, hvb⟩ | ⟨v, hv, hvb⟩
    · -- w = pat ++ v : pat lies inside a
      left
      refine containsSub_correct.mpr ⟨s, v, ?_⟩
      rw [hw, hv]
      simp
    · -- pat = w ++ v, b = v ++ t
      by_cases hwnil : w = []
      · right; left
        subst hwnil
        simp at hv
        exact containsSub_of_start (hv ▸ ⟨t, hvb.symm⟩)
      · by_cases hvnil : v = []
        · left
          subst hvnil
          refine containsSub_correct.mpr ⟨s, [], ?_⟩
          rw [hw]
          simp [hv]
        · right; right
          refine ⟨w.length, List.length_pos.mpr hwnil, ?_, ?_⟩
          · have : pat.length = w.length + v.length := by simp [hv]
            have hvpos : 0 < v.length := List.length_pos.mpr hvnil
            omega
          · have hdrop : pat.drop w.length = v := by simp [hv]
            exact isPrefixOf_eq.mpr (hdrop ▸ ⟨t, hvb.symm⟩)
  · -- s = a ++ w, b = w ++ pat ++ t : pat lies inside b
    right; left
    exact containsSub_correct.mpr ⟨w, t, by simp [hwb]⟩

/-! ### Concrete facts about the augmentation block and the body marker -/

theorem marker_ne_nil : "</body>".data ≠ [] := by decide

theorem marker_length : ("</body>".data).length = 7 := by decide

theorem offlineScripts_ne_nil : offlineScripts.data ≠ [] := by decide

theorem marker_not_in_offlineScripts :
    containsSub "</body>".data offlineScripts.data = false := by decide

theorem marker_straddle_offlineScripts :
    ∀ j < 7, 0 < j →
      ("</body>".data.drop j).isPrefixOf offlineScripts.data = false := by decide

theorem marker_not_in_take6 :
    containsSub "</body>".data ("</body>".data.take 6) = false := by decide

theorem marker_straddle_take6 :
    ∀ j < 7, 0 < j →
      ("</body>".data.drop j).isPrefixOf ("</body>".data.take 6) = false := by decide

/-! ### Structure of `makeOffline` -/

theorem containsSub_mono {pat x y : List Char} (h : containsSub pat x = true)
    (hxy : x <:+: y) : containsSub pat y = true :=
  containsSub_correct.mpr ((containsSub_correct.mp h).trans hxy)

theorem take_append_pattern {p pat q : List Char} :
    (p ++ pat ++ q).take (p.length + pat.length) = p ++ pat := by
  rw [List.append_assoc, List.take_append_eq_append_take,
    List.take_of_length_le (by omega)]
  congr 1
  rw [Nat.add_sub_cancel_left, List.take_left' rfl]

theorem take_le_take {l : List Char} {m n : Nat} (h : m ≤ n) :
    l.take m <+: l.take n := by
  have : (l.take n).take m = l.take m := by
    rw [List.take_take, Nat.min_eq_left h]
  exact this ▸ List.take_prefix m (l.take n)

/-- If the prefix of `l` of length `n + (pat.length - 1)` is free of `pat`,
then no occurrence of `pat` in `l` starts before position `n`. -/
theorem min_of_take_free {pat : List Char} (hpat : pat ≠ []) {l : List Char} {n : Nat}
    (hfree : containsSub pat (l.take (n + (pat.length - 1))) = false) :
    ∀ p q, l = p ++ pat ++ q → n ≤ p.length := by
  intro p q hpq
  by_contra hlt
  have hplt : p.length < n := by omega
  have hpatpos : 0 < pat.length := List.length_pos.mpr hpat
  have h1 : l.take (p.length + pat.length) = p ++ pat := by
    rw [hpq]; exact take_append_pattern
  have hle : p.length + pat.length ≤ n + (pat.length - 1) := by omega
  have h2 : p ++ pat <+: l.take (n + (pat.length - 1)) :=
    h1 ▸ take_le_take hle
  have h3 : containsSub pat (l.take (n + (pat.length - 1))) = true :=
    containsSub_mono (containsSub_of_start (List.prefix_refl pat))
      (List.IsInfix.trans ⟨p, [], by simp⟩ h2.isInfix)
  rw [hfree] at h3
  exact Bool.false_ne_true h3

/-- Left-most-occurrence splits carry no occurrence inside their prefix part. -/
theorem contains_false_of_min {pat pre suf : List Char} (hpat : pat ≠ [])
    (hmin : ∀ p q, pre ++ pat ++ suf = p ++ pat ++ q → pre.length ≤ p.length) :
    containsSub pat pre = false := by
  by_contra h
  have h' : containsSub pat pre = true := by
    revert h; cases containsSub pat pre <;> simp
  obtain ⟨s, t, hst⟩ := containsSub_correct.mp h'
  have hd : pre ++ pat ++ suf = s ++ pat ++ (t ++ pat ++ suf) := by
    rw [← hst]; simp
  have hle := hmin s (t ++ pat ++ suf) hd
  have hlen := congrArg List.length hst
  simp at hlen
  have hpatpos : 0 < pat.length := List.length_pos.mpr hpat
  omega

/-- `makeOffline` on a document containing `</body>`, expressed through the
left-most occurrence split. -/
theorem makeOffline_contains_eq {html pre suf : List Char}
    (hsplit : html = pre ++ "</body>".data ++ suf)
    (hmin : ∀ p q, html = p ++ "</body>".data ++ q → pre.length ≤ p.length) :
    makeOffline html = pre ++ offlineScripts.data ++ "</body>".data ++ suf := by
  have hc : containsSub "</body>".data html = true := by
    rw [hsplit]
    exact containsSub_mono (containsSub_of_start (List.prefix_refl _))
      ⟨pre, suf, by simp⟩
  rw [makeOffline, if_pos hc, hsplit]
  have hmin' : ∀ p q, pre ++ "</body>".data ++ suf = p ++ "</body>".data ++ q →
      pre.length ≤ p.length := fun p q h => hmin p q (hsplit ▸ h)
  rw [replaceFirst_first_occ marker_ne_nil pre suf hmin']
  simp

/-- The document produced by appending the block to a marker-free document is
still marker-free. -/
theorem no_marker_append_offlineScripts {d : List Char}
    (hd : containsSub "</body>".data d = false) :
    containsSub "</body>".data (d ++ offlineScripts.data) = false := by
  by_contra h
  have h' : containsSub "</body>".data (d ++ offlineScripts.data) = true := by
    revert h; cases containsSub "</body>".data (d ++ offlineScripts.data) <;> simp
  rcases containsSub_append_cases d offlineScripts.data h' with h1 | h1 | ⟨j, hj0, hjl, hj⟩
  · rw [hd] at h1; exact Bool.false_ne_true h1
  · rw [marker_not_in_offlineScripts] at h1; exact Bool.false_ne_true h1
  · have := marker_straddle_offlineScripts j (by simpa [marker_length] using hjl) hj0
    rw [this] at hj; exact Bool.false_ne_true hj

/-- Taking just short of a full pattern occurrence after `A`. -/
theorem take_append_six {A m suf : List Char} (hm : m.length = 7) :
    (A ++ m ++ suf).take (A.length + 6) = A ++ m.take 6 := by
  rw [List.append_assoc, List.take_append_eq_append_take,
    List.take_of_length_le (Nat.le_add_right _ 6), Nat.add_sub_cancel_left,
    List.take_append_eq_append_take, hm]
  simp

/-- After inserting the block before the left-most marker, the left-most
marker of the result sits immediately after the inserted block. -/
theorem firstOcc_after_insert {pre suf : List Char}
    (hpre : containsSub "</body>".data pre = false) :
    ∀ p q, (pre ++ offlineScripts.data) ++ "</body>".data ++ suf =
        p ++ "</body>".data ++ q →
      (pre ++ offlineScripts.data).length ≤ p.length := by
  have hA6 : containsSub "</body>".data
      ((pre ++ offlineScripts.data) ++ "</body>".data.take 6) = false := by
    by_contra h
    have h' : containsSub "</body>".data
        ((pre ++ offlineScripts.data) ++ "</body>".data.take 6) = true := by
      revert h
      cases containsSub "</body>".data ((pre ++ offlineScripts.data) ++ "</body>".data.take 6) <;> simp
    rcases containsSub_append_cases _ _ h' with h1 | h1 | ⟨j, hj0, hjl, hj⟩
    · rcases containsSub_append_cases _ _ h1 with h2 | h2 | ⟨j2, hj20, hj2l, hj2⟩
      · rw [hpre] at h2; exact Bool.false_ne_true h2
      · rw [marker_not_in_offlineScripts] at h2; exact Bool.false_ne_true h2
      · have := marker_straddle_offlineScripts j2 (by simpa [marker_length] using hj2l) hj20
        rw [this] at hj2; exact Bool.false_ne_true hj2
    · rw [marker_not_in_take6] at h1; exact Bool.false_ne_true h1
    · have := marker_straddle_take6 j (by simpa [marker_length] using hjl) hj0
      rw [this] at hj; exact Bool.false_ne_true hj
  have hfree : containsSub "</body>".data
      (((pre ++ offlineScripts.data) ++ "</body>".data ++ suf).take
        ((pre ++ offlineScripts.data).length + (("</body>".data).length - 1))) = false := by
    rw [marker_length]
    rw [show (7 : Nat) - 1 = 6 from rfl]
    rw [take_append_six marker_length]
    exact hA6
  exact min_of_take_free marker_ne_nil hfree

/-- Double application of `makeOffline`, left-most-marker case. -/
theorem makeOffline_twice_contains {html pre suf : List Char}
    (hsplit : html = pre ++ "</body>".data ++ suf)
    (hmin : ∀ p q, html = p ++ "</body>".data ++ q → pre.length ≤ p.length) :
    makeOffline (makeOffline html) =
      (pre ++ offlineScripts.data) ++ offlineScripts.data ++ "</body>".data ++ suf := by
  have h1 : makeOffline html = pre ++ offlineScripts.data ++ "</body>".data ++ suf :=
    makeOffline_contains_eq hsplit hmin
  have hpre : containsSub "</body>".data pre = false :=
    contains_false_of_min marker_ne_nil (fun p q h => hmin p q (hsplit ▸ h))
  have hsplit2 : makeOffline html = (pre ++ offlineScripts.data) ++ "</body>".data ++ suf := h1
  exact makeOffline_contains_eq hsplit2 (hsplit2 ▸ firstOcc_after_insert hpre)

/-- Length bookkeeping: every application of `makeOffline` grows the document
by exactly the augmentation block. -/
theorem makeOffline_length (d : List Char) :
    (makeOffline d).length = d.length + offlineScripts.data.length := by
  by_cases hc : containsSub "</body>".data d = true
  · obtain ⟨pre, suf, hsplit, hmin⟩ := containsSub_spec hc
    rw [makeOffline_contains_eq hsplit hmin, hsplit]
    simp
    omega
  · rw [makeOffline, if_neg hc, List.length_append]

/-- Two disjoint copies of a nonempty block give a count of at least two. -/
theorem countSub_two_blocks {B : List Char} (hB : B ≠ []) (x z : List Char) :
    2 ≤ countSub B (x ++ (B ++ (B ++ z))) := by
  have h1 := countSub_append_ge B hB x (B ++ (B ++ z))
  have h2 := countSub_append_ge B hB B (B ++ z)
  have h3 := countSub_append_ge B hB B z
  have h4 := countSub_self_ge_one hB
  omega

/-! ### Structure of the embedded service-worker handlers -/

theorem foldl_applyAction (acts : List SWAction) (st : Caches) :
    acts.foldl applyAction st =
      st.filter (fun e => !(actionDeletes acts).contains e.1) := by
  induction acts generalizing st with
  | nil =>
    simp [actionDeletes]
  | cons a acts ih =>
    cases a with
    | deleteCache n =>
      rw [List.foldl_cons, ih]
      show (cachesDelete n st).filter _ = _
      rw [cachesDelete, List.filter_filter]
      apply List.filter_congr
      intro e _
      have hcons : actionDeletes (SWAction.deleteCache n :: acts) =
          n :: actionDeletes acts := rfl
      rw [hcons]
      by_cases h : e.1 = n
      · simp [h]
      · simp [h, bne, Ne.symm h]
    | claimClients =>
      rw [List.foldl_cons, ih]
      rfl

theorem handleActivate_eq_filter (st : Caches) :
    handleActivate st = st.filter (fun e => e.1 == CACHE_NAME) := by
  rw [handleActivate, foldl_applyAction]
  have hdel : actionDeletes (activateActions st) = activateDeletes st := by
    rw [activateActions, actionDeletes, List.filterMap_append,
      List.filterMap_map]
    have h1 : ((fun a => match a with
        | SWAction.deleteCache n => some n
        | SWAction.claimClients => none) ∘ SWAction.deleteCache) =
        (some : String → Option String) := rfl
    rw [h1, List.filterMap_some]
    simp
  rw [hdel]
  apply List.filter_congr
  intro e he
  by_cases h : e.1 = CACHE_NAME
  · have hnmem : e.1 ∉ activateDeletes st := by
      intro hmem
      rw [activateDeletes, List.mem_filter] at hmem
      exact absurd h (by simpa [bne] using hmem.2)
    simp [h, h ▸ hnmem]
  · have hmem : e.1 ∈ activateDeletes st := by
      rw [activateDeletes, List.mem_filter]
      exact ⟨List.mem_map.mpr ⟨e, he, rfl⟩, by simpa [bne] using h⟩
    simp [h, hmem]

theorem lookupEntries_cachePutEntries (es : List (String × Response)) (url : String) (r : Response) :
    lookupEntries (cachePutEntries es url r) url = some r := by
  induction es with
  | nil => simp [cachePutEntries, lookupEntries]
  | cons e tl ih =>
    obtain ⟨u, r2⟩ := e
    by_cases h : u = url
    · subst h
      simp [cachePutEntries, lookupEntries]
    · simp [cachePutEntries, lookupEntries, h, ih]

theorem cacheGet_cachePut (st : Caches) (name url : String) (r : Response) :
    cacheGet (cachePut st name url r) name url = some r := by
  induction st with
  | nil => simp [cachePut, cacheGet, lookupEntries]
  | cons e tl ih =>
    obtain ⟨n, es⟩ := e
    by_cases h : n = name
    · subst h
      simp [cachePut, cacheGet, lookupEntries_cachePutEntries]
    · simp [cachePut, cacheGet, h, ih]

/-! ### Claim theorems -/

/-- Claim C1: for every intercepted GET request whose live fetch succeeds,
the handler returns the live response; it stores a duplicate of that response
in the current-generation cache store keyed by the request URL exactly when
the response is successful and the URL is not the service worker's own
script URL; otherwise the cache state is left unchanged. -/
theorem sw_fetch_success (st : Caches) (req : Request) (resp : Response)
    (iso : String) (hm : req.method = "GET") :
    (handleFetch st req (some resp) iso).1 = FetchOutcome.respond resp ∧
    (resp.ok = true → strIncludes req.url "/sw.js" = false →
      (handleFetch st req (some resp) iso).2 = cachePut st CACHE_NAME req.url resp ∧
      cacheGet (handleFetch st req (some resp) iso).2 CACHE_NAME req.url = some resp) ∧
    (resp.ok = false ∨ strIncludes req.url "/sw.js" = true →
      (handleFetch st req (some resp) iso).2 = st) := by
  refine ⟨?_, ?_, ?_⟩
  · by_cases hok : resp.ok = true <;> by_cases hsw : strIncludes req.url "/sw.js" = true <;>
      simp [handleFetch, hm, hok, hsw]
  · intro hok hsw
    refine ⟨by simp [handleFetch, hm, hok, hsw], ?_⟩
    simp [handleFetch, hm, hok, hsw, cacheGet_cachePut]
  · intro hcase
    rcases hcase with hok | hsw
    · simp [handleFetch, hm, hok]
    · by_cases hok : resp.ok = true <;> simp [handleFetch, hm, hok, hsw]

theorem sw_fetch_success_witness :
    (handleFetch [] { method := "GET", url := "/index.html" } (some sampleResponse) "T").1 =
      FetchOutcome.respond sampleResponse ∧
    cacheGet (handleFetch [] { method := "GET", url := "/index.html" }
        (some sampleResponse) "T").2 CACHE_NAME "/index.html" = some sampleResponse := by
  have h := sw_fetch_success [] { method := "GET", url := "/index.html" } sampleResponse "T" rfl
  exact ⟨h.1, (h.2.1 (by decide) (by decide)).2⟩

/-- Claim C2: a failing GET fetch with no stored entry yields a synthesized
503 response: JSON with `error` = "Offline", a message and the ISO timestamp
for API-style URLs, otherwise plain text with reason phrase
"Service Unavailable". -/
theorem sw_fetch_offline_unstored (st : Caches) (req : Request) (iso : String)
    (hm : req.method = "GET") (hc : cachesMatch st req.url = none) :
    (strIncludes req.url "/api/" = true →
      handleFetch st req none iso =
        (FetchOutcome.respond
          { status := 503, statusText := "",
            headers := [("Content-Type", "application/json")],
            body := "\x7b\"error\":\"Offline\",\"message\":\"No cached data available\",\"timestamp\":\"" ++ iso ++ "\"\x7d" },
          st)) ∧
    (strIncludes req.url "/api/" = false →
      handleFetch st req none iso =
        (FetchOutcome.respond
          { status := 503, statusText := "Service Unavailable", headers := [],
            body := "Offline - No cached version available" },
          st)) := by
  constructor
  · intro hapi
    simp [handleFetch, hm, hc, hapi, apiOfflineResponse, apiOfflineBody]
  · intro hapi
    simp [handleFetch, hm, hc, hapi, plainOfflineResponse]

theorem sw_fetch_offline_unstored_witness :
    handleFetch [] { method := "GET", url := "/api/x" } none "2020-01-01T00:00:00.000Z" =
      (FetchOutcome.respond
        { status := 503, statusText := "",
          headers := [("Content-Type", "application/json")],
          body := "\x7b\"error\":\"Offline\",\"message\":\"No cached data available\",\"timestamp\":\"" ++ "2020-01-01T00:00:00.000Z" ++ "\"\x7d" },
        []) ∧
    handleFetch [] { method := "GET", url := "/page" } none "T" =
      (FetchOutcome.respond
        { status := 503, statusText := "Service Unavailable", headers := [],
          body := "Offline - No cached version available" },
        []) :=
  ⟨(sw_fetch_offline_unstored [] { method := "GET", url := "/api/x" }
      "2020-01-01T00:00:00.000Z" rfl rfl).1 (by decide),
   (sw_fetch_offline_unstored [] { method := "GET", url := "/page" }
      "T" rfl rfl).2 (by decide)⟩

/-- Claim C3: a failing GET fetch whose URL has a stored entry returns the
stored response unchanged and never falls through to a synthesized offline
response. -/
theorem sw_fetch_offline_cached (st : Caches) (req : Request) (iso : String)
    (cached : Response) (hm : req.method = "GET")
    (hc : cachesMatch st req.url = some cached) :
    handleFetch st req none iso = (FetchOutcome.respond cached, st) := by
  simp [handleFetch, hm, hc]

theorem sw_fetch_offline_cached_witness :
    handleFetch [(CACHE_NAME, [("/a", sampleResponse)])]
        { method := "GET", url := "/a" } none "T" =
      (FetchOutcome.respond sampleResponse, [(CACHE_NAME, [("/a", sampleResponse)])]) :=
  sw_fetch_offline_cached [(CACHE_NAME, [("/a", sampleResponse)])]
    { method := "GET", url := "/a" } "T" sampleResponse rfl (by decide)

/-- Claim C5: requests whose method is not GET pass through unmodified and
leave the cache store untouched, whatever the fetch outcome. -/
theorem sw_fetch_non_get (st : Caches) (req : Request) (net : Option Response)
    (iso : String) (hm : req.method ≠ "GET") :
    handleFetch st req net iso = (FetchOutcome.passThrough, st) := by
  have hg : (req.method != "GET") = true := bne_iff_ne.mpr hm
  simp [handleFetch, hg]

theorem sw_fetch_non_get_witness :
    handleFetch [] { method := "POST", url := "/a" } (some sampleResponse) "T" =
      (FetchOutcome.passThrough, []) ∧
    handleFetch [] { method := "POST", url := "/a" } none "T" =
      (FetchOutcome.passThrough, []) :=
  ⟨sw_fetch_non_get [] { method := "POST", url := "/a" } (some sampleResponse) "T" (by decide),
   sw_fetch_non_get [] { method := "POST", url := "/a" } none "T" (by decide)⟩

/-- Claim C9: both the caching exemption and the API fallback are decided by
substring containment over the whole URL: any GET whose URL contains
"/sw.js" anywhere is never cached, and the JSON fallback fires whenever the
URL contains "/api/" anywhere. -/
theorem sw_fetch_url_substring_policy (st : Caches) (req : Request)
    (resp : Response) (iso : String) :
    (req.method = "GET" → strIncludes req.url "/sw.js" = true →
      handleFetch st req (some resp) iso = (FetchOutcome.respond resp, st)) ∧
    (req.method = "GET" → cachesMatch st req.url = none →
      strIncludes req.url "/api/" = true →
      handleFetch st req none iso = (FetchOutcome.respond (apiOfflineResponse iso), st)) := by
  constructor
  · intro hm hsw
    by_cases hok : resp.ok = true <;> simp [handleFetch, hm, hsw, hok]
  · intro hm hc hapi
    simp [handleFetch, hm, hc, hapi]

theorem sw_fetch_url_substring_policy_witness :
    handleFetch [] { method := "GET", url := "/sw.json" } (some sampleResponse) "T" =
      (FetchOutcome.respond sampleResponse, []) ∧
    handleFetch [] { method := "GET", url := "/page?redirect=/api/v1" } none "T" =
      (FetchOutcome.respond (apiOfflineResponse "T"), []) :=
  ⟨(sw_fetch_url_substring_policy [] { method := "GET", url := "/sw.json" }
      sampleResponse "T").1 rfl (by decide),
   (sw_fetch_url_substring_policy [] { method := "GET", url := "/page?redirect=/api/v1" }
      sampleResponse "T").2 rfl rfl (by decide)⟩

/-- Claim C4: the activate handler deletes every cache store whose
identifier differs from the current generation identifier — afterwards
exactly the current generation's entries remain — and claims the clients
only after all the deletions. -/
theorem sw_activate_whole_generation (st : Caches) :
    handleActivate st = st.filter (fun e => e.1 == CACHE_NAME) ∧
    (∀ n, n ∈ st.map Prod.fst → n ≠ CACHE_NAME →
      SWAction.deleteCache n ∈ activateActions st) ∧
    (∃ dels, activateActions st = dels ++ [SWAction.claimClients] ∧
      ∀ a ∈ dels, ∃ n, a = SWAction.deleteCache n ∧ n ≠ CACHE_NAME) := by
  refine ⟨handleActivate_eq_filter st, ?_, ?_⟩
  · intro n hn hne
    rw [activateActions, List.mem_append]
    left
    exact List.mem_map.mpr ⟨n, by
      rw [activateDeletes, List.mem_filter]
      exact ⟨hn, by simpa [bne] using hne⟩, rfl⟩
  · refine ⟨(activateDeletes st).map SWAction.deleteCache, rfl, ?_⟩
    intro a ha
    obtain ⟨n, hn, rfl⟩ := List.mem_map.mp ha
    rw [activateDeletes, List.mem_filter] at hn
    exact ⟨n, rfl, by simpa [bne] using hn.2⟩

theorem sw_activate_whole_generation_witness :
    handleActivate [("old-gen", []), (CACHE_NAME, [("/a", sampleResponse)])] =
      [(CACHE_NAME, [("/a", sampleResponse)])] ∧
    SWAction.deleteCache "old-gen" ∈
      activateActions [("old-gen", []), (CACHE_NAME, [("/a", sampleResponse)])] := by
  have h := sw_activate_whole_generation [("old-gen", []), (CACHE_NAME, [("/a", sampleResponse)])]
  exact ⟨h.1.trans (by decide), h.2.1 "old-gen" (by decide) (by decide)⟩

/-- Claim C8: the service-worker generator takes no meaningful input and is
deterministic: any two invocations return the identical script text, which
carries the constant cache generation identifier. -/
theorem generateServiceWorker_deterministic :
    ∀ u v : Unit, generateServiceWorker u = generateServiceWorker v ∧
      strIncludes (generateServiceWorker u) CACHE_NAME = true := by
  intro u v
  refine ⟨rfl, ?_⟩
  show strIncludes serviceWorkerSource CACHE_NAME = true
  decide

/-- Claim C6 (amended): when the marker `</body>` occurs and no occurrence
starts inside `pre` (so the written marker is the document's first one, which
the hypothesis states as the decidable marker-freeness of
`pre ++ "</body>".take 6`), the output is the input with one copy of the
augmentation block inserted immediately before that first marker; every
other byte is identical to the input. -/
theorem makeOffline_inserts_before_first_marker (pre suf : List Char)
    (hpre : containsSub "</body>".data (pre ++ "</body>".data.take 6) = false) :
    makeOffline (pre ++ "</body>".data ++ suf) =
      pre ++ offlineScripts.data ++ "</body>".data ++ suf := by
  have hfree : containsSub "</body>".data
      ((pre ++ "</body>".data ++ suf).take
        (pre.length + (("</body>".data).length - 1))) = false := by
    rw [marker_length, show (7 : Nat) - 1 = 6 from rfl, take_append_six marker_length]
    exact hpre
  exact makeOffline_contains_eq rfl (min_of_take_free marker_ne_nil hfree)

theorem makeOffline_inserts_before_first_marker_witness :
    makeOffline ("<p>".data ++ "</body>".data ++ "</body>".data) =
      "<p>".data ++ offlineScripts.data ++ "</body>".data ++ "</body>".data :=
  makeOffline_inserts_before_first_marker "<p>".data "</body>".data (by decide)

/-- Claim C6 (counterexample): for the input `"</body>" ++ offlineScripts`,
which contains the marker, the injector's output contains the augmentation
block more than once, refuting the claim that the output always contains
exactly one instance of the block. -/
theorem makeOffline_single_copy_counterexample :
    containsSub "</body>".data ("</body>".data ++ offlineScripts.data) = true ∧
    countSub offlineScripts.data
      (makeOffline ("</body>".data ++ offlineScripts.data)) ≠ 1 := by
  constructor
  · exact containsSub_of_start (List.prefix_append _ _)
  · have h1 : makeOffline ("</body>".data ++ offlineScripts.data) =
        [] ++ offlineScripts.data ++ "</body>".data ++ offlineScripts.data :=
      makeOffline_contains_eq (by simp) (fun p q _ => Nat.zero_le _)
    rw [h1, List.nil_append]
    have ha := countSub_append_ge offlineScripts.data offlineScripts_ne_nil
      (offlineScripts.data ++ "</body>".data) offlineScripts.data
    have hb := countSub_append_ge offlineScripts.data offlineScripts_ne_nil
      offlineScripts.data "</body>".data
    have hc := countSub_self_ge_one offlineScripts_ne_nil
    omega

/-- Claim C7: on a document with no `</body>` marker, the injector appends
the augmentation block at the end, leaving everything before it unchanged. -/
theorem makeOffline_no_marker_appends (html : List Char)
    (h : containsSub "</body>".data html = false) :
    makeOffline html = html ++ offlineScripts.data := by
  rw [makeOffline, if_neg (by simp [h])]

theorem makeOffline_no_marker_appends_witness :
    makeOffline "<p>hello".data = "<p>hello".data ++ offlineScripts.data :=
  makeOffline_no_marker_appends "<p>hello".data (by decide)

/-- Claim C10: the injector is not idempotent: applying it twice always
yields a document containing (at least) two instances of the augmentation
block, and `makeOffline (makeOffline d) ≠ makeOffline d` for every `d`. -/
theorem makeOffline_not_idempotent (d : List Char) :
    2 ≤ countSub offlineScripts.data (makeOffline (makeOffline d)) ∧
      makeOffline (makeOffline d) ≠ makeOffline d := by
  constructor
  · by_cases hc : containsSub "</body>".data d = true
    · obtain ⟨pre, suf, hsplit, hmin⟩ := containsSub_spec hc
      rw [makeOffline_twice_contains hsplit hmin]
      have h2 := countSub_two_blocks offlineScripts_ne_nil pre ("</body>".data ++ suf)
      simpa [List.append_assoc] using h2
    · have hcf : containsSub "</body>".data d = false := by
        revert hc; cases containsSub "</body>".data d <;> simp
      have h1 : makeOffline d = d ++ offlineScripts.data := by
        rw [makeOffline, if_neg (by simp [hcf])]
      have h2 : makeOffline (makeOffline d) =
          (d ++ offlineScripts.data) ++ offlineScripts.data := by
        rw [h1, makeOffline, if_neg (by simp [no_marker_append_offlineScripts hcf])]
      rw [h2]
      have h3 := countSub_two_blocks offlineScripts_ne_nil d ([] : List Char)
      simpa [List.append_assoc] using h3
  · intro he
    have hlen := congrArg List.length he
    rw [makeOffline_length (makeOffline d), makeOffline_length d] at hlen
    have hpos : 0 < offlineScripts.data.length :=
      List.length_pos.mpr offlineScripts_ne_nil
    omega

theorem makeOffline_not_idempotent_witness :
    2 ≤ countSub offlineScripts.data (makeOffline (makeOffline "<p>".data)) ∧
      makeOffline (makeOffline "<p>".data) ≠ makeOffline "<p>".data :=
  makeOffline_not_idempotent "<p>".data
